import Mathlib

/-
Verification of the LocalDeployManager deployment tool against its design
specification. Each Python routine that a claim depends on is shallowly
embedded as an executable Lean definition, translated line by line from the
source under `src/`; external effects (socket binds, the filesystem, git,
docker, the wall clock) are passed in explicitly as oracle arguments so the
control flow of the Python code is preserved exactly.
-/

namespace LDM

/-! ## Port manager (`src/port_manager.py`)

`PortManager.is_port_available` attempts a socket bind and reports success;
here it is abstracted as an oracle `free : Nat → Bool` (the bind either
succeeds or raises `OSError`, which the method turns into `False`).
-/

/-- The probe loop of `PortManager.suggest_alternative_port`
(`for i in range(1, max_attempts + 1)`): `alternative = desired_port + i`;
`break` once `alternative > 65535`; return the first free alternative;
fall through to `None`.  `count` is the number of loop indices left,
`i` the current loop index. -/
def probeLoop (free : Nat → Bool) (desired : Nat) : Nat → Nat → Option Nat
  | _, 0 => none
  | i, count + 1 =>
    let alternative := desired + i
    if alternative > 65535 then none
    else if free alternative then some alternative
    else probeLoop free desired (i + 1) count

/-- `PortManager.suggest_alternative_port(desired_port, max_attempts=10)`:
if the desired port itself is available it is returned immediately;
otherwise ports `desired+1 .. desired+max_attempts` are probed in order. -/
def suggestAlternativePort (free : Nat → Bool) (desired : Nat) (maxAttempts : Nat) :
    Option Nat :=
  if free desired then some desired
  else probeLoop free desired 1 maxAttempts

/-- `PortManager.validate_port_range(port)` with the two environment reads
(`platform.system() == "Linux"` and `os.geteuid()`) passed in as arguments.
Returns `(is_valid, error_message)`. -/
def validatePortRange (isLinux : Bool) (euid : Nat) (port : Int) :
    Bool × Option String :=
  if port < 1 ∨ port > 65535 then
    (false, some ("Port " ++ toString port ++ " is out of valid range (1-65535)"))
  else if port < 1024 ∧ isLinux = true ∧ euid ≠ 0 then
    (false, some ("Port " ++ toString port ++
      " requires root privileges on Linux. Consider using a port >= 1024"))
  else
    (true, none)

lemma probeLoop_eq_none (free : Nat → Bool) (desired : Nat) :
    ∀ count i, (∀ k, i ≤ k → k < i + count → desired + k ≤ 65535 →
      free (desired + k) = false) →
    probeLoop free desired i count = none := by
  intro count
  induction count with
  | zero => intro i _; rfl
  | succ n ih =>
    intro i h
    simp only [probeLoop]
    by_cases hgt : desired + i > 65535
    · simp [hgt]
    · have hle : desired + i ≤ 65535 := Nat.le_of_not_lt hgt
      have hfree : free (desired + i) = false :=
        h i (Nat.le_refl i) (by omega) hle
      simp only [hgt, if_false, hfree, Bool.false_eq_true, if_false]
      exact ih (i + 1) (fun k hk1 hk2 hk3 => h k (by omega) (by omega) hk3)

lemma probeLoop_eq_first (free : Nat → Bool) (desired : Nat) :
    ∀ count i k, i ≤ k → k < i + count → desired + k ≤ 65535 →
      free (desired + k) = true →
      (∀ j, i ≤ j → j < k → free (desired + j) = false) →
    probeLoop free desired i count = some (desired + k) := by
  intro count
  induction count with
  | zero => intro i k _ h2 _ _ _; omega
  | succ n ih =>
    intro i k hik hkc hk65 hkfree hbefore
    simp only [probeLoop]
    have hi65 : ¬ (desired + i > 65535) := by omega
    simp only [hi65, if_false]
    by_cases hi : i = k
    · subst hi; simp [hkfree]
    · have hilt : i < k := lt_of_le_of_ne hik hi
      have hif : free (desired + i) = false := hbefore i (Nat.le_refl i) hilt
      simp only [hif, Bool.false_eq_true, if_false]
      exact ih (i + 1) k (by omega) (by omega) hk65 hkfree
        (fun j hj1 hj2 => hbefore j (by omega) hj2)

/-- C4: characterization of `suggest_alternative_port`.  When the desired
port is itself free the function returns the desired port (this is the part
the claim gets wrong); when it is occupied, the function returns the first
free port among `desired+1 .. desired+maxAttempts` taken in increasing
order, and `none` when every in-range candidate is occupied or the probe
window leaves the valid port space. -/
theorem suggestAlternativePort_spec (free : Nat → Bool) (desired maxAttempts : Nat) :
    (free desired = true →
      suggestAlternativePort free desired maxAttempts = some desired)
    ∧ (free desired = false →
      ((∀ i, 1 ≤ i → i ≤ maxAttempts → desired + i ≤ 65535 →
          free (desired + i) = false) →
        suggestAlternativePort free desired maxAttempts = none)
      ∧ (∀ i, 1 ≤ i → i ≤ maxAttempts → desired + i ≤ 65535 →
          free (desired + i) = true →
          (∀ j, 1 ≤ j → j < i → free (desired + j) = false) →
        suggestAlternativePort free desired maxAttempts = some (desired + i))) := by
  constructor
  · intro h; simp [suggestAlternativePort, h]
  · intro h
    constructor
    · intro hall
      simp only [suggestAlternativePort, h, Bool.false_eq_true, if_false]
      exact probeLoop_eq_none free desired maxAttempts 1
        (fun k hk1 hk2 hk3 => hall k hk1 (by omega) hk3)
    · intro i hi1 hi2 hi65 hifree hbefore
      simp only [suggestAlternativePort, h, Bool.false_eq_true, if_false]
      exact probeLoop_eq_first free desired maxAttempts 1 i hi1 (by omega) hi65 hifree
        (fun j hj1 hj2 => hbefore j hj1 hj2)

/-- C4 counterexample: the claim states `FindAlternative` never returns
`desiredPort` itself, but `suggest_alternative_port` returns the desired
port immediately whenever it is available (here the oracle reports every
port free, and the function answers `8080` for desired port `8080`). -/
theorem suggestAlternativePort_returns_desired_cex :
    suggestAlternativePort (fun _ => true) 8080 10 = some 8080 := rfl

/-- Witness for `suggestAlternativePort_spec`: with only port 8082 free and
desired port 8080 occupied, the first free probe 8082 is returned. -/
theorem suggestAlternativePort_spec_wit :
    suggestAlternativePort (fun n => n == 8082) 8080 10 = some 8082 :=
  ((suggestAlternativePort_spec (fun n => n == 8082) 8080 10).2 rfl).2 2
    (by decide) (by decide) (by decide) (by decide)
    (by decide)

/-- C5: characterization of `validate_port_range`.  Ports outside
`1 .. 65535` are rejected; ports `1 .. 1023` are additionally rejected —
a hard failure with an error message, not an advisory warning — when the
host is Linux and the effective user is not root; every other in-range
port validates with no message. -/
theorem validatePortRange_spec (isLinux : Bool) (euid : Nat) (port : Int) :
    ((port < 1 ∨ port > 65535) →
      (validatePortRange isLinux euid port).1 = false)
    ∧ (1 ≤ port → port ≤ 65535 → port < 1024 → isLinux = true → euid ≠ 0 →
      (validatePortRange isLinux euid port).1 = false)
    ∧ (1 ≤ port → port ≤ 65535 → (1024 ≤ port ∨ isLinux = false ∨ euid = 0) →
      validatePortRange isLinux euid port = (true, none)) := by
  refine ⟨?_, ?_, ?_⟩
  · intro h
    simp only [validatePortRange]
    rw [if_pos h]
  · intro h1 h2 h3 h4 h5
    have hrange : ¬ (port < 1 ∨ port > 65535) := by omega
    simp only [validatePortRange, hrange, if_false]
    rw [if_pos ⟨h3, h4, h5⟩]
  · intro h1 h2 h3
    have hrange : ¬ (port < 1 ∨ port > 65535) := by omega
    have hpriv : ¬ (port < 1024 ∧ isLinux = true ∧ euid ≠ 0) := by
      rcases h3 with h | h | h
      · intro hc; omega
      · intro hc; rw [h] at hc; exact Bool.false_ne_true hc.2.1
      · intro hc; exact hc.2.2 h
    simp only [validatePortRange, hrange, if_false, hpriv]

/-- C5 counterexample: the claim states ports below 1024 only draw an
advisory warning while allocation proceeds, but `validate_port_range`
returns a hard failure for port 80 on Linux with a non-root effective
user. -/
theorem validatePortRange_privileged_cex :
    validatePortRange true 1000 80 =
      (false, some "Port 80 requires root privileges on Linux. Consider using a port >= 1024") := rfl

/-- Witness for `validatePortRange_spec`: port 8080 on Linux as non-root
validates cleanly. -/
theorem validatePortRange_spec_wit :
    validatePortRange true 1000 8080 = (true, none) :=
  (validatePortRange_spec true 1000 8080).2.2 (by decide) (by decide) (Or.inl (by decide))

/-! ## Backup manager: snapshot identifiers (`src/backup_manager.py`, `create_backup`)

`backup_id = datetime.now().strftime("%Y%m%d_%H%M%S")`, optionally suffixed
with `_{name}`.  `datetime.now()` carries microseconds, which the format
string drops, so the call instant is modeled with a microsecond field that
the formatter ignores.
-/

/-- A `datetime.now()` value: calendar fields plus microseconds. -/
structure PyDateTime where
  year : Nat
  month : Nat
  day : Nat
  hour : Nat
  minute : Nat
  second : Nat
  micro : Nat
  deriving DecidableEq

/-- Zero-padded fixed-width decimal rendering, most significant digit
first, as produced by the `%Y`/`%m`/`%d`/`%H`/`%M`/`%S` directives. -/
def pad (k n : Nat) : List Char :=
  (List.range k).map fun i => Nat.digitChar (n / 10 ^ (k - 1 - i) % 10)

/-- The character data of `strftime("%Y%m%d_%H%M%S")`. -/
def fmtData (t : PyDateTime) : List Char :=
  pad 4 t.year ++ (pad 2 t.month ++ (pad 2 t.day ++
    ('_' :: (pad 2 t.hour ++ (pad 2 t.minute ++ pad 2 t.second)))))

/-- The backup identifier: `f"{timestamp}_{name}"` when a label is given,
the bare timestamp otherwise (string concatenation modeled on the
character data). -/
def makeBackupId (t : PyDateTime) (name : Option String) : String :=
  match name with
  | some n => ⟨fmtData t ++ '_' :: n.data⟩
  | none => ⟨fmtData t⟩

lemma pad_length (k n : Nat) : (pad k n).length = k := by simp [pad]

lemma pad_succ (k n : Nat) :
    pad (k + 1) n = pad k (n / 10) ++ [Nat.digitChar (n % 10)] := by
  unfold pad
  rw [List.range_succ, List.map_append]
  congr 1
  · apply List.map_congr_left
    intro i hi
    have hik : i < k := List.mem_range.mp hi
    have h1 : k + 1 - 1 - i = k - i := by omega
    rw [h1]
    have hexp : 10 ^ (k - i) = 10 * 10 ^ (k - 1 - i) := by
      have h2 : k - i = (k - 1 - i) + 1 := by omega
      rw [h2, pow_succ]
      ring
    rw [hexp, ← Nat.div_div_eq_div_mul]
  · simp

/-- Reading a digit character back to its value. -/
def digitVal (c : Char) : Nat := c.toNat - 48

lemma digitVal_digitChar (d : Nat) (hd : d < 10) :
    digitVal (Nat.digitChar d) = d := by
  interval_cases d <;> rfl

/-- Decode a big-endian digit list. -/
def unpad (l : List Char) : Nat := l.foldl (fun acc c => 10 * acc + digitVal c) 0

lemma unpad_pad (k : Nat) : ∀ n, n < 10 ^ k → unpad (pad k n) = n := by
  induction k with
  | zero =>
    intro n hn
    have hn0 : n = 0 := by simpa using hn
    subst hn0; rfl
  | succ k ih =>
    intro n hn
    have hlt : n / 10 < 10 ^ k := by
      rw [Nat.div_lt_iff_lt_mul (by norm_num : 0 < 10)]
      calc n < 10 ^ (k + 1) := hn
        _ = 10 ^ k * 10 := by rw [pow_succ]
    rw [pad_succ]
    have hfold : unpad (pad k (n / 10) ++ [Nat.digitChar (n % 10)]) =
        10 * unpad (pad k (n / 10)) + digitVal (Nat.digitChar (n % 10)) := by
      simp [unpad, List.foldl_append]
    rw [hfold, ih _ hlt, digitVal_digitChar _ (Nat.mod_lt n (by norm_num))]
    omega

lemma pad_inj {k m n : Nat} (hm : m < 10 ^ k) (hn : n < 10 ^ k)
    (h : pad k m = pad k n) : m = n := by
  rw [← unpad_pad k m hm, ← unpad_pad k n hn, h]

lemma fmtData_length (t : PyDateTime) : (fmtData t).length = 15 := by
  simp [fmtData, pad_length]

lemma fmtData_inj {t1 t2 : PyDateTime}
    (hy1 : t1.year < 10000) (hy2 : t2.year < 10000)
    (hmo1 : t1.month < 100) (hmo2 : t2.month < 100)
    (hd1 : t1.day < 100) (hd2 : t2.day < 100)
    (hh1 : t1.hour < 100) (hh2 : t2.hour < 100)
    (hmi1 : t1.minute < 100) (hmi2 : t2.minute < 100)
    (hs1 : t1.second < 100) (hs2 : t2.second < 100)
    (h : fmtData t1 = fmtData t2) :
    t1.year = t2.year ∧ t1.month = t2.month ∧ t1.day = t2.day ∧
    t1.hour = t2.hour ∧ t1.minute = t2.minute ∧ t1.second = t2.second := by
  unfold fmtData at h
  obtain ⟨hY, h⟩ := List.append_inj h (by rw [pad_length, pad_length])
  obtain ⟨hMo, h⟩ := List.append_inj h (by rw [pad_length, pad_length])
  obtain ⟨hD, h⟩ := List.append_inj h (by rw [pad_length, pad_length])
  rw [List.cons.injEq] at h
  obtain ⟨-, h⟩ := h
  obtain ⟨hH, h⟩ := List.append_inj h (by rw [pad_length, pad_length])
  obtain ⟨hMi, hS⟩ := List.append_inj h (by rw [pad_length, pad_length])
  have e10000 : (10000 : Nat) = 10 ^ 4 := by norm_num
  have e100 : (100 : Nat) = 10 ^ 2 := by norm_num
  rw [e10000] at hy1 hy2
  rw [e100] at hmo1 hmo2 hd1 hd2 hh1 hh2 hmi1 hmi2 hs1 hs2
  exact ⟨pad_inj hy1 hy2 hY, pad_inj hmo1 hmo2 hMo, pad_inj hd1 hd2 hD,
    pad_inj hh1 hh2 hH, pad_inj hmi1 hmi2 hMi, pad_inj hs1 hs2 hS⟩

lemma makeBackupId_data_take (t : PyDateTime) (name : Option String) :
    (makeBackupId t name).data.take 15 = fmtData t := by
  cases name with
  | none =>
    show (fmtData t).take 15 = fmtData t
    exact List.take_of_length_le (by rw [fmtData_length])
  | some n =>
    show (fmtData t ++ '_' :: n.data).take 15 = fmtData t
    rw [show 15 = (fmtData t).length from (fmtData_length t).symm]
    exact List.take_left _ _

/-- C6 (amended): snapshot identifiers generated at different
second-resolution timestamps are distinct, whatever the optional labels
are (field bounds are those of real `datetime` values, relaxed to the
padding widths). -/
theorem makeBackupId_inj_across_seconds (t1 t2 : PyDateTime)
    (n1 n2 : Option String)
    (hy1 : t1.year < 10000) (hy2 : t2.year < 10000)
    (hmo1 : t1.month < 100) (hmo2 : t2.month < 100)
    (hd1 : t1.day < 100) (hd2 : t2.day < 100)
    (hh1 : t1.hour < 100) (hh2 : t2.hour < 100)
    (hmi1 : t1.minute < 100) (hmi2 : t2.minute < 100)
    (hs1 : t1.second < 100) (hs2 : t2.second < 100)
    (hne : ¬ (t1.year = t2.year ∧ t1.month = t2.month ∧ t1.day = t2.day ∧
      t1.hour = t2.hour ∧ t1.minute = t2.minute ∧ t1.second = t2.second)) :
    makeBackupId t1 n1 ≠ makeBackupId t2 n2 := by
  intro heq
  have hdata : (makeBackupId t1 n1).data = (makeBackupId t2 n2).data := by
    rw [heq]
  have hfmt : fmtData t1 = fmtData t2 := by
    rw [← makeBackupId_data_take t1 n1, ← makeBackupId_data_take t2 n2, hdata]
  exact hne (fmtData_inj hy1 hy2 hmo1 hmo2 hd1 hd2 hh1 hh2 hmi1 hmi2 hs1 hs2 hfmt)

/-- C6 counterexample: the claim asserts collision-freedom for every pair
of `CreateSnapshot` calls, but two distinct call instants inside the same
second (differing only in microseconds, which the format drops) yield the
very same identifier, hence the same snapshot directory
(`mkdir(exist_ok=True)` silently reuses it). -/
theorem makeBackupId_same_second_cex :
    makeBackupId ⟨2025, 1, 1, 0, 0, 0, 0⟩ none =
      makeBackupId ⟨2025, 1, 1, 0, 0, 0, 500000⟩ none ∧
    (⟨2025, 1, 1, 0, 0, 0, 0⟩ : PyDateTime) ≠ ⟨2025, 1, 1, 0, 0, 0, 500000⟩ :=
  ⟨rfl, by decide⟩

/-- Witness for `makeBackupId_inj_across_seconds`: two unlabeled snapshots
one second apart get different identifiers. -/
theorem makeBackupId_inj_across_seconds_wit :
    makeBackupId ⟨2025, 1, 1, 0, 0, 0, 0⟩ none ≠
      makeBackupId ⟨2025, 1, 1, 0, 0, 1, 0⟩ none :=
  makeBackupId_inj_across_seconds ⟨2025, 1, 1, 0, 0, 0, 0⟩ ⟨2025, 1, 1, 0, 0, 1, 0⟩
    none none (by decide) (by decide) (by decide) (by decide) (by decide) (by decide)
    (by decide) (by decide) (by decide) (by decide) (by decide) (by decide) (by decide)

/-! ## Backup manager: `create_backup`

The body of `BackupManager.create_backup` is one `try` block; any exception
lands in the handler, which removes the partially-written backup directory
(`shutil.rmtree(backup_path)`) and returns `(False, None)`.  The oracle
below says which of the fallible filesystem steps succeed.  The database
dump (`_backup_database`) has its own internal `try`/`except` and reports
failure through its return value, so it never aborts the snapshot; the
metadata write (`save_json_file`) raises on failure.
-/

/-- Outcome oracle for one `create_backup` run. -/
structure SnapEnv where
  backendExists : Bool
  frontendExists : Bool
  copyBackendOk : Bool
  copyFrontendOk : Bool
  copyConfigOk : Bool
  dbDumpOk : Bool
  metadataSaveOk : Bool
  deriving DecidableEq

/-- Observable result of `create_backup`: the returned pair plus the final
on-disk state of the snapshot directory. -/
structure SnapResult where
  success : Bool
  backupId : Option String
  dirExists : Bool
  metadataWritten : Bool
  dbFlag : Bool
  deriving DecidableEq

/-- `BackupManager.create_backup(project_path, project_config, name,
include_db)`: copy the component trees and configuration files, attempt the
database dump (non-fatal), write metadata last; on any exception remove the
directory and return failure. -/
def createBackup (now : PyDateTime) (name : Option String) (env : SnapEnv)
    (includeDb : Bool) : SnapResult :=
  let bid := makeBackupId now name
  if env.backendExists = true ∧ env.copyBackendOk = false then
    ⟨false, none, false, false, false⟩
  else if env.frontendExists = true ∧ env.copyFrontendOk = false then
    ⟨false, none, false, false, false⟩
  else if env.copyConfigOk = false then
    ⟨false, none, false, false, false⟩
  else
    if env.metadataSaveOk = false then
      ⟨false, none, false, false, false⟩
    else
      ⟨true, some bid, true, true, includeDb && env.dbDumpOk⟩

/-- C7: `create_backup` never leaves a snapshot directory without its
metadata file: metadata is written only after every payload step
succeeded, failure paths remove the directory before returning, and a
successful return implies the directory with its metadata exists. -/
theorem createBackup_no_orphan (now : PyDateTime) (name : Option String)
    (env : SnapEnv) (includeDb : Bool) :
    ((createBackup now name env includeDb).dirExists = true →
      (createBackup now name env includeDb).metadataWritten = true)
    ∧ ((createBackup now name env includeDb).success = false →
      (createBackup now name env includeDb).dirExists = false)
    ∧ ((createBackup now name env includeDb).metadataWritten = true →
      (env.backendExists = true → env.copyBackendOk = true) ∧
      (env.frontendExists = true → env.copyFrontendOk = true) ∧
      env.copyConfigOk = true ∧ env.metadataSaveOk = true) := by
  obtain ⟨be, fe, cb, cf, cc, db, ms⟩ := env
  simp only [createBackup]
  rcases be with _ | _ <;> rcases fe with _ | _ <;> rcases cb with _ | _ <;>
    rcases cf with _ | _ <;> rcases cc with _ | _ <;> rcases ms with _ | _ <;>
    simp

/-- Witness for `createBackup_no_orphan`: with every step succeeding the
snapshot directory exists and carries metadata. -/
theorem createBackup_no_orphan_wit :
    (createBackup ⟨2025, 1, 1, 0, 0, 0, 0⟩ none
      ⟨true, true, true, true, true, true, true⟩ true).metadataWritten = true :=
  (createBackup_no_orphan ⟨2025, 1, 1, 0, 0, 0, 0⟩ none
    ⟨true, true, true, true, true, true, true⟩ true).1 rfl

/-! ## Backup manager: `restore_backup`

`restore_backup` checks the snapshot directory and its metadata file before
touching the target tree; the filesystem mutations it then performs are
recorded here as an ordered event list.
-/

/-- What the backup and the target contain, for one `restore_backup` run. -/
structure RestoreEnv where
  snapshotExists : Bool
  metadataExists : Bool
  backendInBackup : Bool
  frontendInBackup : Bool
  backendInTarget : Bool
  frontendInTarget : Bool
  configInBackup : Bool
  envFileInBackup : Bool
  metaDbBackup : Bool
  dbFileExists : Bool
  deriving DecidableEq

/-- `BackupManager.restore_backup(backup_id, target_path, restore_db)`:
returns the success flag and the list of filesystem mutations performed on
the target project tree, in program order. -/
def restoreBackup (env : RestoreEnv) (restoreDb : Bool) : Bool × List String :=
  if env.snapshotExists = false then (false, [])
  else if env.metadataExists = false then (false, [])
  else
    let m1 : List String :=
      if env.backendInBackup then
        (if env.backendInTarget then ["rmtree backend"] else []) ++ ["copytree backend"]
      else []
    let m2 : List String :=
      if env.frontendInBackup then
        (if env.frontendInTarget then ["rmtree frontend"] else []) ++ ["copytree frontend"]
      else []
    let m3 : List String := if env.configInBackup then ["copy config files"] else []
    let m4 : List String := if env.envFileInBackup then ["copy backend env file"] else []
    let m5 : List String :=
      if restoreDb && env.metaDbBackup && env.dbFileExists then ["restore database"] else []
    (true, m1 ++ m2 ++ m3 ++ m4 ++ m5)

/-- C8: when the snapshot directory or its metadata file is absent,
`restore_backup` returns failure having performed no filesystem mutation
on the target tree. -/
theorem restoreBackup_absent_no_mutation (env : RestoreEnv) (restoreDb : Bool)
    (h : env.snapshotExists = false ∨ env.metadataExists = false) :
    restoreBackup env restoreDb = (false, []) := by
  rcases h with h | h
  · simp [restoreBackup, h]
  · unfold restoreBackup
    rcases hs : env.snapshotExists with _ | _
    · simp
    · simp [h]

/-- Witness for `restoreBackup_absent_no_mutation`: a snapshot whose
metadata file was deleted is refused with no mutation. -/
theorem restoreBackup_absent_no_mutation_wit :
    restoreBackup ⟨true, false, true, true, true, true, true, true, true, true⟩ true =
      (false, []) :=
  restoreBackup_absent_no_mutation
    ⟨true, false, true, true, true, true, true, true, true, true⟩ true (Or.inr rfl)

/-! ## Backup manager: `list_backups` and `cleanup_old_backups`

`list_backups` walks the backup root (`sorted(iterdir(), reverse=True)`,
modeled as the listing already being in that order) and produces one entry
per directory; a directory without `backup-metadata.json` is flagged
corrupted with `timestamp: None`.

`cleanup_old_backups` then sorts the entries with
`backups.sort(key=lambda x: x.get('timestamp', ''), reverse=True)`.  Every
entry carries the `timestamp` key, so the `''` default never applies: a
corrupted entry contributes the key `None`.  CPython raises `TypeError`
when `list.sort` compares `None` with `str` (or `None` with `None`), and
in a list of two or more elements every element takes part in at least one
comparison, so the sort raises exactly when the list has at least two
entries and at least one `None` key; the surrounding `try`/`except`
swallows the error and the function returns `0` without deleting
anything.
-/

/-- One entry produced by `list_backups`. -/
structure BackupEntry where
  backupId : String
  timestamp : Option String
  corrupted : Bool
  deriving DecidableEq

/-- `BackupManager.list_backups()` over a directory listing (name, metadata
timestamp if the metadata file is present), given in the
reverse-name-sorted order the code iterates in. -/
def listBackups (dirs : List (String × Option String)) : List BackupEntry :=
  dirs.map fun d =>
    match d.2 with
    | some ts => ⟨d.1, some ts, false⟩
    | none => ⟨d.1, none, true⟩

/-- Lexicographic-by-code-point comparison of character data, as Python
compares `str` values. -/
def charListLt : List Char → List Char → Bool
  | [], [] => false
  | [], _ :: _ => true
  | _ :: _, [] => false
  | a :: as, b :: bs =>
    if a < b then true
    else if a = b then charListLt as bs
    else false

/-- Stable descending insertion by timestamp key (all keys are strings on
this path): an element is placed before the first strictly smaller key, so
equal keys keep their original relative order, as `list.sort` with
`reverse=True` does. -/
def insertDescByTs (x : BackupEntry) : List BackupEntry → List BackupEntry
  | [] => [x]
  | y :: ys =>
    if charListLt (y.timestamp.getD "").data (x.timestamp.getD "").data then
      x :: y :: ys
    else y :: insertDescByTs x ys

/-- `backups.sort(key=lambda x: x.get('timestamp', ''), reverse=True)`,
with the `TypeError` raised on a `None`/`str` comparison surfaced as an
error value. -/
def pySortDescByTimestamp (l : List BackupEntry) :
    Except String (List BackupEntry) :=
  if 2 ≤ l.length ∧ l.any (fun e => e.timestamp.isNone) then
    Except.error "TypeError: not supported between instances of NoneType and str"
  else
    Except.ok (l.foldr insertDescByTs [])

/-- `BackupManager.cleanup_old_backups(keep_count)`: returns the number of
backups deleted.  The whole body sits in a `try` block whose handler
returns `0`; a listed backup always exists on disk, so each
`delete_backup` call succeeds. -/
def cleanupOldBackups (entries : List BackupEntry) (keep : Nat) : Nat :=
  if entries.length ≤ keep then 0
  else
    match pySortDescByTimestamp entries with
    | Except.error _ => 0
    | Except.ok sorted => (sorted.drop keep).length

/-- C3: evaluation at the failing input.  With two snapshots, one of them
corrupted (no metadata, hence `timestamp: None`), and `keep_count = 1`,
the timestamp sort raises `TypeError` (comparing `None` with `str`), the
exception handler returns `0`, and nothing is deleted — the claimed
result is `M - keepCount = 1` with the corrupted entry sorted last. -/
theorem cleanupOldBackups_corrupted_bug :
    cleanupOldBackups
      (listBackups [("20240102_000000", some "2024-01-02T00:00:00"), ("corrupt", none)])
      1 = 0 := rfl

/-! ## History manager (`src/history_manager.py`)

A deploy-history entry as persisted in `deploy-history.json`; fields beyond
those a claim mentions (timestamp, duration, option flags) are omitted, the
shape of the record is otherwise that of `add_deploy`.
-/

/-- One history entry. -/
structure DeployRecord where
  id : Nat
  dtype : String
  success : Bool
  backendCommit : Option String
  frontendCommit : Option String
  errorText : Option String
  deriving DecidableEq

/-- `HistoryManager.add_deploy(...)`: `deploy_id = len(history) + 1`, the
entry is appended and the id returned as a string. -/
def addDeploy (history : List DeployRecord) (dtype : String) (success : Bool)
    (backendCommit frontendCommit errorText : Option String) :
    List DeployRecord × String :=
  let deployId := history.length + 1
  (history ++ [⟨deployId, dtype, success, backendCommit, frontendCommit, errorText⟩],
    toString deployId)

/-- The Python slice `history[-keep_count:]`: for `keep_count = 0` the
slice `[-0:]` is `[0:]`, the whole list. -/
def pyLastSlice {α : Type} (l : List α) (k : Nat) : List α :=
  if k = 0 then l else l.drop (l.length - k)

/-- `for i, entry in enumerate(new_history, start=1): entry["id"] = i`. -/
def renumber : Nat → List DeployRecord → List DeployRecord
  | _, [] => []
  | n, e :: es =>
    ⟨n, e.dtype, e.success, e.backendCommit, e.frontendCommit, e.errorText⟩ ::
      renumber (n + 1) es

/-- `HistoryManager.cleanup_old_entries(keep_count)`: keep the most recent
`keep_count` entries, renumber ids from 1, return the new history and the
number of entries removed. -/
def cleanupOldEntries (history : List DeployRecord) (keep : Nat) :
    List DeployRecord × Nat :=
  if history.length ≤ keep then (history, 0)
  else
    let newHistory := pyLastSlice history keep
    (renumber 1 newHistory, history.length - newHistory.length)

/-- The at-rest id invariant: the ids read off the history are exactly
`1, 2, ..., length`. -/
def idsDense (h : List DeployRecord) : Prop :=
  h.map DeployRecord.id = List.range' 1 h.length

lemma renumber_length (l : List DeployRecord) :
    ∀ n, (renumber n l).length = l.length := by
  induction l with
  | nil => intro n; rfl
  | cons e es ih => intro n; simp [renumber, ih (n + 1)]

lemma renumber_ids (l : List DeployRecord) :
    ∀ n, (renumber n l).map DeployRecord.id = List.range' n l.length := by
  induction l with
  | nil => intro n; rfl
  | cons e es ih =>
    intro n
    simp only [renumber, List.map_cons, ih (n + 1), List.length_cons]
    rw [List.range'_succ]

/-- C10: the id invariant is preserved by both history operations:
`add_deploy` appends one entry whose id is the previous length plus one,
and `cleanup_old_entries` renumbers the surviving suffix back to a dense
`1..N`; in both results the ids are dense and pairwise distinct (hence
strictly increasing left to right). -/
theorem historyIds_dense (h : List DeployRecord) (dtype : String)
    (success : Bool) (bc fc err : Option String) (keep : Nat)
    (hinv : idsDense h) :
    (addDeploy h dtype success bc fc err).1 =
      h ++ [⟨h.length + 1, dtype, success, bc, fc, err⟩]
    ∧ idsDense (addDeploy h dtype success bc fc err).1
    ∧ ((addDeploy h dtype success bc fc err).1.map DeployRecord.id).Nodup
    ∧ idsDense (cleanupOldEntries h keep).1
    ∧ ((cleanupOldEntries h keep).1.map DeployRecord.id).Nodup := by
  have hadd : idsDense (addDeploy h dtype success bc fc err).1 := by
    unfold idsDense addDeploy at *
    simp only [List.map_append, List.map_cons, List.map_nil, List.length_append,
      List.length_cons, List.length_nil, hinv]
    rw [show h.length + (0 + 1) = h.length + 1 by omega, List.range'_concat]
    simp [Nat.add_comm]
  have hclean : idsDense (cleanupOldEntries h keep).1 := by
    unfold cleanupOldEntries
    by_cases hle : h.length ≤ keep
    · simpa [hle] using hinv
    · simp only [hle, if_false]
      unfold idsDense
      rw [renumber_ids, renumber_length]
  refine ⟨rfl, hadd, ?_, hclean, ?_⟩
  · rw [hadd]; exact List.nodup_range' _ _
  · rw [hclean]; exact List.nodup_range' _ _

/-- Witness for `historyIds_dense`: one dense single-entry history stays
dense under `add_deploy`. -/
theorem historyIds_dense_wit :
    idsDense (addDeploy [⟨1, "deploy", true, none, none, none⟩] "deploy" false
      none none (some "boom")).1 :=
  (historyIds_dense [⟨1, "deploy", true, none, none, none⟩] "deploy" false
    none none (some "boom") 50 rfl).2.1

/-! ## Docker manager: `wait_for_healthy` (`src/docker_manager.py`)

`container_health` returns `None` when the container cannot be found or
when reading its attributes raises (the exception is caught); otherwise it
returns the raw `State.Health.Status` value, which may itself be absent.
`wait_for_healthy` polls it every 2 seconds (`time.sleep(2)`) while the
elapsed time is below the timeout; time is modeled discretely, advancing
by exactly the 2-second sleep per iteration.
-/

/-- What one attempt to read a container health indicator can observe. -/
inductive ContainerRead where
  | absent
  | readError
  | status (s : Option String)
  deriving DecidableEq

/-- `DockerManager.container_health(name)`: `None` for a missing container
or a raised attribute read, the raw status otherwise — it never
propagates an exception. -/
def containerHealth : ContainerRead → Option String
  | ContainerRead.absent => none
  | ContainerRead.readError => none
  | ContainerRead.status s => s

/-- The `while time.time() - start_time < timeout` loop of
`wait_for_healthy`, started at elapsed time `t`; returns the result and
the elapsed time on exit. -/
def waitLoop (health : Nat → Option String) (timeout t : Nat) : Bool × Nat :=
  if h : t < timeout then
    if health t = some "healthy" then (true, t)
    else waitLoop health timeout (t + 2)
  else (false, t)
  termination_by timeout - t
  decreasing_by omega

/-- `DockerManager.wait_for_healthy(container_name, timeout)`. -/
def waitForHealthy (health : Nat → Option String) (timeout : Nat) : Bool × Nat :=
  waitLoop health timeout 0

lemma waitLoop_not_healthy (health : Nat → Option String) (timeout : Nat) :
    ∀ fuel t, timeout ≤ t + fuel →
      (∀ k, health (t + 2 * k) ≠ some "healthy") →
      (waitLoop health timeout t).1 = false ∧
      timeout ≤ (waitLoop health timeout t).2 ∧
      (t < timeout → (waitLoop health timeout t).2 < timeout + 2) ∧
      (timeout ≤ t → (waitLoop health timeout t).2 = t) := by
  intro fuel
  induction fuel with
  | zero =>
    intro t hle _
    rw [waitLoop]
    have hnlt : ¬ t < timeout := by omega
    simp [hnlt]
    omega
  | succ n ih =>
    intro t hle hnh
    by_cases hlt : t < timeout
    · have h0 : health t ≠ some "healthy" := by
        have := hnh 0
        simpa using this
      rw [waitLoop]
      simp only [hlt, dif_pos, h0, if_false]
      have ih2 := ih (t + 2) (by omega)
        (fun k => by have := hnh (k + 1); rw [show t + 2 * (k + 1) = t + 2 + 2 * k by omega] at this; exact this)
      refine ⟨ih2.1, ih2.2.1, fun _ => ?_, fun hc => by omega⟩
      by_cases h2 : t + 2 < timeout
      · exact ih2.2.2.1 h2
      · have := ih2.2.2.2 (by omega)
        omega
    · rw [waitLoop]
      simp [hlt]
      omega

lemma waitLoop_first_healthy (health : Nat → Option String) (timeout : Nat) :
    ∀ fuel t k, timeout ≤ t + fuel → t + 2 * k < timeout →
      health (t + 2 * k) = some "healthy" →
      (∀ j, j < k → health (t + 2 * j) ≠ some "healthy") →
      waitLoop health timeout t = (true, t + 2 * k) := by
  intro fuel
  induction fuel with
  | zero => intro t k hle hk _ _; omega
  | succ n ih =>
    intro t k hle hk hkh hfirst
    have hlt : t < timeout := by omega
    rw [waitLoop]
    simp only [hlt, dif_pos]
    by_cases h0 : health t = some "healthy"
    · have hk0 : k = 0 := by
        by_contra hne
        exact hfirst 0 (Nat.pos_of_ne_zero hne) h0
      subst hk0
      simp [h0]
    · have hkne : k ≠ 0 := by
        intro hk0; subst hk0; simp at hkh; exact h0 (by simpa using hkh)
      obtain ⟨k2, rfl⟩ : ∃ k2, k = k2 + 1 := ⟨k - 1, by omega⟩
      simp only [h0, if_false]
      rw [show t + 2 * (k2 + 1) = t + 2 + 2 * k2 by omega] at hk hkh ⊢
      exact ih (t + 2) k2 (by omega) hk hkh
        (fun j hj => by
          have := hfirst (j + 1) (by omega)
          rw [show t + 2 * (j + 1) = t + 2 + 2 * j by omega] at this
          exact this)

lemma waitLoop_true_exists (health : Nat → Option String) (timeout : Nat) :
    ∀ fuel t, timeout ≤ t + fuel → (waitLoop health timeout t).1 = true →
      ∃ k, t + 2 * k < timeout ∧ health (t + 2 * k) = some "healthy" := by
  intro fuel
  induction fuel with
  | zero =>
    intro t hle htrue
    rw [waitLoop] at htrue
    have hnlt : ¬ t < timeout := by omega
    simp [hnlt] at htrue
  | succ n ih =>
    intro t hle htrue
    by_cases hlt : t < timeout
    · rw [waitLoop] at htrue
      simp only [hlt, dif_pos] at htrue
      by_cases h0 : health t = some "healthy"
      · exact ⟨0, by simpa using hlt, by simpa using h0⟩
      · simp only [h0, if_false] at htrue
        obtain ⟨k, hk1, hk2⟩ := ih (t + 2) (by omega) htrue
        exact ⟨k + 1, by omega, by
          rw [show t + 2 * (k + 1) = t + 2 + 2 * k by omega]; exact hk2⟩
    · rw [waitLoop] at htrue
      simp [hlt] at htrue

/-- C9: `wait_for_healthy` polls the health indicator at elapsed times
`0, 2, 4, ...`; it returns `true` exactly when some poll inside the
timeout window observes `healthy`, and then it returns at the first such
poll; when no poll ever observes `healthy` it returns `false` with an
elapsed time in `[timeout, timeout + 2)` — never earlier, never
unboundedly later.  Health is read through `containerHealth`, which maps a
missing container or a raised attribute read to `none` (unknown), so an
unreadable status is just another non-`healthy` poll and the loop
continues. -/
theorem waitForHealthy_spec (world : Nat → ContainerRead) (timeout : Nat) :
    ((waitForHealthy (fun t => containerHealth (world t)) timeout).1 = true ↔
      ∃ k, 2 * k < timeout ∧ containerHealth (world (2 * k)) = some "healthy")
    ∧ (∀ k, 2 * k < timeout → containerHealth (world (2 * k)) = some "healthy" →
        (∀ j, j < k → containerHealth (world (2 * j)) ≠ some "healthy") →
        waitForHealthy (fun t => containerHealth (world t)) timeout = (true, 2 * k))
    ∧ ((∀ k, containerHealth (world (2 * k)) ≠ some "healthy") →
        (waitForHealthy (fun t => containerHealth (world t)) timeout).1 = false ∧
        timeout ≤ (waitForHealthy (fun t => containerHealth (world t)) timeout).2 ∧
        (waitForHealthy (fun t => containerHealth (world t)) timeout).2 < timeout + 2) := by
  set health : Nat → Option String := fun t => containerHealth (world t) with hh
  have hfirst : ∀ k, 2 * k < timeout → health (2 * k) = some "healthy" →
      (∀ j, j < k → health (2 * j) ≠ some "healthy") →
      waitForHealthy health timeout = (true, 2 * k) := by
    intro k hk1 hk2 hj
    have := waitLoop_first_healthy health timeout timeout 0 k (by omega)
      (by simpa using hk1) (by simpa using hk2)
      (fun j hjk => by simpa using hj j hjk)
    simpa [waitForHealthy] using this
  refine ⟨⟨?_, ?_⟩, hfirst, ?_⟩
  · intro htrue
    obtain ⟨k, hk1, hk2⟩ := waitLoop_true_exists health timeout timeout 0 (by omega) htrue
    exact ⟨k, by simpa using hk1, by simpa using hk2⟩
  · rintro ⟨k, hk1, hk2⟩
    have hp : ∃ m, health (2 * m) = some "healthy" ∧ 2 * m < timeout := ⟨k, hk2, hk1⟩
    have hspec := Nat.find_spec hp
    have hres := hfirst (Nat.find hp) hspec.2 hspec.1 (fun j hj hcontra => by
      have hlt := hspec.2
      exact Nat.find_min hp hj ⟨hcontra, by omega⟩)
    rw [hres]
  · intro hnever
    have := waitLoop_not_healthy health timeout timeout 0 (by omega)
      (fun k => by simpa using hnever k)
    rcases this with ⟨h1, h2, h3, h4⟩
    refine ⟨h1, h2, ?_⟩
    show (waitLoop health timeout 0).2 < timeout + 2
    by_cases h0 : 0 < timeout
    · exact h3 h0
    · have := h4 (by omega)
      omega

/-- Witness for `waitForHealthy_spec`: a 4-second timeout against a service
whose health can never be read returns `false` after exactly 4 elapsed
seconds. -/
theorem waitForHealthy_spec_wit :
    (waitForHealthy (fun t => containerHealth ((fun _ => ContainerRead.readError) t)) 4).1 = false ∧
    4 ≤ (waitForHealthy (fun t => containerHealth ((fun _ => ContainerRead.readError) t)) 4).2 ∧
    (waitForHealthy (fun t => containerHealth ((fun _ => ContainerRead.readError) t)) 4).2 < 4 + 2 :=
  (waitForHealthy_spec (fun _ => ContainerRead.readError) 4).2.2
    (fun k => by simp [containerHealth])

/-! ## Deployment pipeline (`src/cli.py`, the `deploy` command)

The `deploy` command is a straight-line script.  Fail-fast stages call
`sys.exit(1)` directly; `add_deploy_to_history` is invoked only at step 13,
after the final summary, with `success=True` hard-coded.  The stages whose
failures are only logged (the optional backup stub, composer/maven install,
the database health wait, seeders, the optimization sub-steps, final
verification) have no effect on control flow or on the persisted state and
therefore carry no oracle field.

On a pull failure the script logs `"... pull failed, using current
version"` and continues, but the local `backend_commit_new` (resp.
`frontend_commit_new`) is assigned only on the success branch of the pull
or under `--no-pull`; the configuration update at step 11 then references
it inside the `git_commits` dict literal, raising `UnboundLocalError`.
Locals are modeled as `Option (Option String)` with the outer `none`
meaning unbound; the inner value is the Python `Optional[str]`.
-/

/-- The six `--...` option flags of the `deploy` command. -/
structure DeployOpts where
  freshDb : Bool
  seed : Bool
  withBackup : Bool
  noPull : Bool
  noDeps : Bool
  noBuild : Bool
  deriving DecidableEq

/-- The persisted `.project-config.json` fields the pipeline touches.
`backendCommit`/`frontendCommit` are the stored `git_commits` values
(JSON `null` allowed; the `"unknown"` fallback for a wholly absent
`git_commits` key is not modeled, as the init flow always writes it). -/
structure ProjectConfig where
  name : String
  stack : String
  domain : String
  backendCommit : Option String
  frontendCommit : Option String
  deriving DecidableEq

/-- Outcomes of the external operations the control flow depends on. -/
structure DeployEnv where
  projectExists : Bool
  configLoads : Bool
  backendDirExists : Bool
  frontendDirExists : Bool
  composeFileExists : Bool
  backendPullOk : Bool
  frontendPullOk : Bool
  backendCommitAfterPull : Option String
  frontendCommitAfterPull : Option String
  npmInstallOk : Bool
  npmBuildOk : Bool
  distExists : Bool
  composeUpOk : Bool
  migrateOk : Bool
  deriving DecidableEq

/-- How one run of the `deploy` command terminates, together with the
persisted project configuration and deploy history after the run.
`exited` is a `sys.exit(1)` on a fail-fast stage; `crashed` is an
uncaught Python exception. -/
inductive DeployOutcome where
  | completed (config : ProjectConfig) (history : List DeployRecord)
  | exited (stage : String) (config : ProjectConfig) (history : List DeployRecord)
  | crashed (message : String) (config : ProjectConfig) (history : List DeployRecord)
  deriving DecidableEq

/-- The `deploy` command of `src/cli.py`, over the starting persisted
state `(config, history)`. -/
def deploy (opts : DeployOpts) (env : DeployEnv) (config : ProjectConfig)
    (history : List DeployRecord) : DeployOutcome :=
  -- 1. pre-deploy validations, all fail-fast
  if env.projectExists = false then
    DeployOutcome.exited "no active project" config history
  else if env.configLoads = false then
    DeployOutcome.exited "failed to load project configuration" config history
  else if env.backendDirExists = false ∨ env.frontendDirExists = false then
    DeployOutcome.exited "backend or frontend directory not found" config history
  else if env.composeFileExists = false then
    DeployOutcome.exited "docker-compose.yml not found" config history
  else
    -- 2. --with-backup only logs a warning (phase-6 stub)
    -- 3. git pull, warn-and-continue per component
    let backendNew : Option (Option String) :=
      if opts.noPull then some config.backendCommit
      else if env.backendPullOk then some env.backendCommitAfterPull
      else none
    let frontendNew : Option (Option String) :=
      if opts.noPull then some config.frontendCommit
      else if env.frontendPullOk then some env.frontendCommitAfterPull
      else none
    -- 4. dependencies: composer/maven failures only warn; npm install exits
    if opts.noDeps = false ∧ env.npmInstallOk = false then
      DeployOutcome.exited "npm install failed" config history
    -- 5. frontend build and artifact placement, fail-fast
    else if opts.noBuild = false ∧ env.npmBuildOk = false then
      DeployOutcome.exited "frontend build failed" config history
    else if opts.noBuild = false ∧ env.distExists = false then
      DeployOutcome.exited "dist directory not found after build" config history
    -- 6. docker compose up, fail-fast
    else if env.composeUpOk = false then
      DeployOutcome.exited "docker compose up failed" config history
    -- 7. database health wait: a timeout only logs a warning
    -- 8. migrations: fail-fast on the laravel stack; seeders only warn;
    --    the springboot stack delegates to JPA and cannot fail here
    else if config.stack = "laravel-vue" ∧ env.migrateOk = false then
      DeployOutcome.exited "migrations failed" config history
    else
      -- 9./10. optimizations and verification never abort
      -- 11. configuration update evaluates the commit locals
      match backendNew with
      | none =>
        DeployOutcome.crashed "UnboundLocalError: backend_commit_new" config history
      | some b =>
        match frontendNew with
        | none =>
          DeployOutcome.crashed "UnboundLocalError: frontend_commit_new" config history
        | some f =>
          let config2 : ProjectConfig :=
            { config with backendCommit := b, frontendCommit := f }
          -- 13. history record, success=True hard-coded
          DeployOutcome.completed config2
            (addDeploy history "deploy" true b f none).1

/-- Every run of `deploy` ends in one of three shapes: completed with the
updated configuration and exactly one appended success record, or an exit
or crash that leaves the persisted state untouched. -/
lemma deploy_shapes (opts : DeployOpts) (env : DeployEnv)
    (config : ProjectConfig) (history : List DeployRecord) :
    (∃ b f, deploy opts env config history =
        DeployOutcome.completed
          { config with backendCommit := b, frontendCommit := f }
          (history ++ [⟨history.length + 1, "deploy", true, b, f, none⟩]))
    ∨ (∃ s, deploy opts env config history = DeployOutcome.exited s config history)
    ∨ (∃ m, deploy opts env config history = DeployOutcome.crashed m config history) := by
  unfold deploy addDeploy
  simp only []
  by_cases h1 : env.projectExists = false
  · rw [if_pos h1]; exact Or.inr (Or.inl ⟨_, rfl⟩)
  rw [if_neg h1]
  by_cases h2 : env.configLoads = false
  · rw [if_pos h2]; exact Or.inr (Or.inl ⟨_, rfl⟩)
  rw [if_neg h2]
  by_cases h3 : env.backendDirExists = false ∨ env.frontendDirExists = false
  · rw [if_pos h3]; exact Or.inr (Or.inl ⟨_, rfl⟩)
  rw [if_neg h3]
  by_cases h4 : env.composeFileExists = false
  · rw [if_pos h4]; exact Or.inr (Or.inl ⟨_, rfl⟩)
  rw [if_neg h4]
  by_cases h5 : opts.noDeps = false ∧ env.npmInstallOk = false
  · rw [if_pos h5]; exact Or.inr (Or.inl ⟨_, rfl⟩)
  rw [if_neg h5]
  by_cases h6 : opts.noBuild = false ∧ env.npmBuildOk = false
  · rw [if_pos h6]; exact Or.inr (Or.inl ⟨_, rfl⟩)
  rw [if_neg h6]
  by_cases h7 : opts.noBuild = false ∧ env.distExists = false
  · rw [if_pos h7]; exact Or.inr (Or.inl ⟨_, rfl⟩)
  rw [if_neg h7]
  by_cases h8 : env.composeUpOk = false
  · rw [if_pos h8]; exact Or.inr (Or.inl ⟨_, rfl⟩)
  rw [if_neg h8]
  by_cases h9 : config.stack = "laravel-vue" ∧ env.migrateOk = false
  · rw [if_pos h9]; exact Or.inr (Or.inl ⟨_, rfl⟩)
  rw [if_neg h9]
  by_cases hp : opts.noPull = true
  · rw [if_pos hp, if_pos hp]; exact Or.inl ⟨_, _, rfl⟩
  rw [if_neg hp, if_neg hp]
  by_cases hb : env.backendPullOk = true
  · rw [if_pos hb]
    by_cases hf : env.frontendPullOk = true
    · rw [if_pos hf]; exact Or.inl ⟨_, _, rfl⟩
    · rw [if_neg hf]; exact Or.inr (Or.inr ⟨_, rfl⟩)
  · rw [if_neg hb]; exact Or.inr (Or.inr ⟨_, rfl⟩)

/-- C1 (amended): a run that reaches the end of the pipeline appends
exactly one `DeployRecord`, with id `length + 1` and `success = true`;
a run aborted by a fail-fast stage (`sys.exit(1)`) or killed by an
uncaught exception terminates with the persisted configuration and
history completely unchanged — no failure record is ever written. -/
theorem deploy_history_semantics (opts : DeployOpts) (env : DeployEnv)
    (config : ProjectConfig) (history : List DeployRecord) :
    (∀ c2 h2, deploy opts env config history = DeployOutcome.completed c2 h2 →
      ∃ b f, h2 = history ++ [⟨history.length + 1, "deploy", true, b, f, none⟩] ∧
        c2.backendCommit = b ∧ c2.frontendCommit = f)
    ∧ (∀ s c2 h2, deploy opts env config history = DeployOutcome.exited s c2 h2 →
      c2 = config ∧ h2 = history)
    ∧ (∀ m c2 h2, deploy opts env config history = DeployOutcome.crashed m c2 h2 →
      c2 = config ∧ h2 = history) := by
  have hcase := deploy_shapes opts env config history
  refine ⟨fun c2 h2 hc => ?_, fun s c2 h2 hc => ?_, fun m c2 h2 hc => ?_⟩
  · rcases hcase with ⟨b, f, heq⟩ | ⟨s2, heq⟩ | ⟨m2, heq⟩
    · rw [heq] at hc; cases hc; exact ⟨b, f, rfl, rfl, rfl⟩
    · rw [heq] at hc; cases hc
    · rw [heq] at hc; cases hc
  · rcases hcase with ⟨b, f, heq⟩ | ⟨s2, heq⟩ | ⟨m2, heq⟩
    · rw [heq] at hc; cases hc
    · rw [heq] at hc; cases hc; exact ⟨rfl, rfl⟩
    · rw [heq] at hc; cases hc
  · rcases hcase with ⟨b, f, heq⟩ | ⟨s2, heq⟩ | ⟨m2, heq⟩
    · rw [heq] at hc; cases hc
    · rw [heq] at hc; cases hc
    · rw [heq] at hc; cases hc; exact ⟨rfl, rfl⟩

/-- Witness for `deploy_history_semantics`: a fully successful run over an
empty history ends with exactly the one success record, id 1. -/
theorem deploy_history_semantics_wit :
    ∃ b f,
      [(⟨1, "deploy", true, some "new1", some "new2", none⟩ : DeployRecord)] =
        ([] : List DeployRecord) ++
          [⟨([] : List DeployRecord).length + 1, "deploy", true, b, f, none⟩] ∧
      (⟨"proj", "laravel-vue", "app.local", some "new1", some "new2"⟩ :
        ProjectConfig).backendCommit = b ∧
      (⟨"proj", "laravel-vue", "app.local", some "new1", some "new2"⟩ :
        ProjectConfig).frontendCommit = f :=
  (deploy_history_semantics ⟨false, false, false, false, false, false⟩
    ⟨true, true, true, true, true, true, true, some "new1", some "new2",
      true, true, true, true, true⟩
    ⟨"proj", "laravel-vue", "app.local", some "old1", some "old2"⟩ []).1
    ⟨"proj", "laravel-vue", "app.local", some "new1", some "new2"⟩
    [⟨1, "deploy", true, some "new1", some "new2", none⟩] rfl

/-- C1 counterexample: the claim says an aborted run still records one
`DeployRecord` with `success=false` and the error text, but when the
fail-fast npm install stage fails the command exits immediately and the
history is left exactly as it was (here: still empty). -/
theorem deploy_abort_no_history_cex :
    deploy ⟨false, false, false, false, false, false⟩
      ⟨true, true, true, true, true, true, true, some "new1", some "new2",
        false, true, true, true, true⟩
      ⟨"proj", "laravel-vue", "app.local", some "old1", some "old2"⟩ [] =
    DeployOutcome.exited "npm install failed"
      ⟨"proj", "laravel-vue", "app.local", some "old1", some "old2"⟩ [] := rfl

/-- C2, evaluated at the failing input: with pulls enabled and the backend
pull failing, the pipeline does continue past the sync stage
(warn-and-continue, existing checkout kept), but the end-of-run
configuration update references the never-assigned local
`backend_commit_new` and the run dies with `UnboundLocalError` — the
claim says the run never crashes.  The stored commit identifiers are left
at their prior values only because the crash happens before
`save_project_config`; no history record is written either. -/
theorem deploy_pull_failure_crash :
    deploy ⟨false, false, false, false, false, false⟩
      ⟨true, true, true, true, true, false, true, some "new1", some "new2",
        true, true, true, true, true⟩
      ⟨"proj", "laravel-vue", "app.local", some "old1", some "old2"⟩ [] =
    DeployOutcome.crashed "UnboundLocalError: backend_commit_new"
      ⟨"proj", "laravel-vue", "app.local", some "old1", some "old2"⟩ [] := rfl

end LDM
